import Mathlib

/-!
Shallow embedding of the core logic of `src/src/pages/Index.tsx`
(Horizon-Lab-Screening): the countdown-timer hook `useTimer`, the
`TaskForm.handleSubmit` validation/build step, the task-list handlers of the
`Index` component, the search filter effect, and the localStorage load effect.

JavaScript numbers that only ever hold integers are modelled as `Int`
(timer) or `Nat` (formatting, which the app only calls on non-negative
values); JavaScript strings are Lean `String`s, with `toLowerCase` modelled
at the character-list level; `undefined`-able fields are `Option`; the
falsiness of the empty string under `||` and `if` is modelled explicitly.
-/

set_option maxHeartbeats 1000000
set_option linter.unusedVariables false

namespace HorizonLab

/-- `type Priority = 'high' | 'medium' | 'low'` (Index.tsx line 68). -/
inductive Priority where
  | high
  | medium
  | low
deriving DecidableEq

/-- The `Task` interface (Index.tsx lines 70-78).  `description` and
`dueDate` are optional (`?:` in TypeScript), every other field is present. -/
structure Task where
  id : String
  title : String
  description : Option String
  priority : Priority
  completed : Bool
  dueDate : Option String
  createdAt : String
deriving DecidableEq

/-- The form state held by `TaskForm` (Index.tsx lines 172-175): all four
fields are plain strings resp. a priority; an empty string stands for the
unfilled input. -/
structure TaskFormState where
  title : String
  description : String
  priority : Priority
  dueDate : String
deriving DecidableEq

/-- JavaScript `a || b` on strings: the empty string is falsy. -/
def jsOrString (a b : String) : String := if a = "" then b else a

/-- JavaScript `s.trim()`: removes leading and trailing whitespace, modelled
at the character level. -/
def jsTrim (s : String) : String :=
  String.mk (((s.toList.dropWhile Char.isWhitespace).reverse.dropWhile
    Char.isWhitespace).reverse)

/-- `TaskForm.handleSubmit` (Index.tsx lines 178-200): validates that the
title is non-empty after trimming; on failure returns the field-keyed error
map (here an association list) and performs no further work; on success
builds the task exactly as the source does.  `freshId` stands for the value
`uuidv4()` would produce and `now` for `new Date().toISOString()`. -/
def handleSubmit (form : TaskFormState) (initialTask : Option Task)
    (freshId now : String) : Except (List (String × String)) Task :=
  if jsTrim form.title = "" then
    .error [("title", "Title is required.")]
  else
    .ok
      { id := match initialTask with
          | some t => jsOrString t.id freshId
          | none => freshId
        title := form.title
        description := some form.description
        priority := form.priority
        completed := match initialTask with
          | some t => t.completed
          | none => false
        dueDate := if form.dueDate = "" then none else some form.dueDate
        createdAt := match initialTask with
          | some t => jsOrString t.createdAt now
          | none => now }

/-- `handleAddTask` (Index.tsx lines 336-339): prepends the new task. -/
def handleAddTask (tasks : List Task) (newTask : Task) : List Task :=
  newTask :: tasks

/-- `handleSaveEditedTask` (Index.tsx lines 346-350): replaces every task
whose `id` equals the edited task's `id`, in place. -/
def handleSaveEditedTask (tasks : List Task) (editedTask : Task) : List Task :=
  tasks.map fun task => if task.id = editedTask.id then editedTask else task

/-- `handleToggleComplete` (Index.tsx lines 356-362): flips `completed` on
every task whose `id` matches (the source receives the task to toggle and
compares ids; only the id is consulted). -/
def handleToggleComplete (tasks : List Task) (toggleId : String) : List Task :=
  tasks.map fun task =>
    if task.id = toggleId then { task with completed := !task.completed } else task

/-- JavaScript `s.toLowerCase()`, modelled at the character level. -/
def jsToLower (s : String) : List Char := s.toList.map Char.toLower

/-- JavaScript `hay.includes(needle)`: substring containment. -/
def jsIncludes (hay needle : List Char) : Bool := decide (needle <:+: hay)

/-- The per-task predicate of the filter effect (Index.tsx lines 315-318):
`task.title.toLowerCase().includes(q) || (task.description &&
task.description.toLowerCase().includes(q))`.  A missing description and the
empty-string description are both falsy, so neither matches through the
second disjunct. -/
def matchesQuery (lowerCaseQuery : List Char) (task : Task) : Bool :=
  jsIncludes (jsToLower task.title) lowerCaseQuery ||
    (match task.description with
     | some d => d ≠ "" && jsIncludes (jsToLower d) lowerCaseQuery
     | none => false)

/-- The filter effect (Index.tsx lines 310-321): a whitespace-only query
keeps the whole list, otherwise the list is filtered by `matchesQuery`
against the lower-cased (untrimmed) query. -/
def filterTasks (searchQuery : String) (tasks : List Task) : List Task :=
  if jsTrim searchQuery = "" then tasks
  else tasks.filter (matchesQuery (jsToLower searchQuery))

/-- The create path: `TaskForm.handleSubmit` with no initial task followed by
`handleAddTask` on success.  Returns the new list and the error map (empty on
success); the untouched list is returned alongside the errors on failure. -/
def createTask (tasks : List Task) (form : TaskFormState) (freshId now : String) :
    List Task × List (String × String) :=
  match handleSubmit form none freshId now with
  | .error errs => (tasks, errs)
  | .ok t => (handleAddTask tasks t, [])

/-- The update path: `TaskForm.handleSubmit` with `initialTask = orig`
followed by `handleSaveEditedTask` on success. -/
def updateTask (tasks : List Task) (orig : Task) (form : TaskFormState)
    (freshId now : String) : List Task × List (String × String) :=
  match handleSubmit form (some orig) freshId now with
  | .error errs => (tasks, errs)
  | .ok t => (handleSaveEditedTask tasks t, [])

/-! ### The timer unit (`useTimer`, Index.tsx lines 19-65)

`timerRef` records whether `timerRef.current` holds an interval id (a
non-null, truthy number); `running` records whether an interval is actually
scheduled.  The two separate exactly in the expiry branch of the tick
callback, which calls `clearInterval` but leaves `timerRef.current` set. -/

structure TimerState where
  timeRemaining : Int
  isTimeUp : Bool
  timerRef : Bool
  running : Bool
deriving DecidableEq

/-- The initial hook state: `useState(initialTime)`, `useState(false)`,
`useRef(null)`, no interval scheduled. -/
def initTimer (initialTime : Int) : TimerState :=
  { timeRemaining := initialTime, isTimeUp := false, timerRef := false, running := false }

/-- `startTimer` (lines 24-37): returns immediately if `timerRef.current` is
set; otherwise clears `isTimeUp` and schedules the interval, storing its id
in the ref. -/
def startTimer (s : TimerState) : TimerState :=
  if s.timerRef then s
  else { s with isTimeUp := false, timerRef := true, running := true }

/-- `resetTimer` (lines 39-46): clears any interval, nulls the ref, restores
`timeRemaining` to the initial value, clears `isTimeUp`. -/
def resetTimer (s : TimerState) (initialTime : Int) : TimerState :=
  { timeRemaining := initialTime, isTimeUp := false, timerRef := false, running := false }

/-- One firing of the interval callback (lines 28-35).  The callback only
fires while an interval is scheduled; on `prevTime <= 1` it clears the
interval (but not the ref), sets `isTimeUp`, and pins the time at `0`. -/
def tick (s : TimerState) : TimerState :=
  if s.running then
    if s.timeRemaining ≤ 1 then
      { s with timeRemaining := 0, isTimeUp := true, running := false }
    else
      { s with timeRemaining := s.timeRemaining - 1 }
  else s

/-- JavaScript `String.prototype.padStart(targetLen, pad)` for a one-char
pad string: left-pads to at least `targetLen` characters. -/
def padStart (s : String) (targetLen : Nat) (pad : Char) : String :=
  if targetLen ≤ s.length then s
  else String.mk (List.replicate (targetLen - s.length) pad) ++ s

/-- `formatTime` (lines 56-62).  The app only ever calls it on non-negative
values, so the argument is a `Nat`; `String(n)` for a non-negative integer is
its decimal representation `Nat.repr`. -/
def formatTime (seconds : Nat) : String :=
  let minutes := seconds / 60
  let remainingSeconds := seconds % 60
  let formattedMinutes := padStart (Nat.repr minutes) 2 '0'
  let formattedSeconds := padStart (Nat.repr remainingSeconds) 2 '0'
  formattedMinutes ++ ":" ++ formattedSeconds

/-! ### The load effect (Index.tsx lines 288-298) and `JSON.parse`

The load effect reads `localStorage.getItem('tasks')` (modelled as an
`Option String`), and — only when the result is truthy, i.e. neither `null`
nor the empty string — runs `JSON.parse` on it and passes the parsed value
to `setTasks` **without any shape validation** (the result is merely cast to
`Task[]`).  A thrown parse error is caught and swallowed, leaving the
initial empty list in place.  `JSON.parse` is modelled by a small
recursive-descent parser of the JSON grammar over the character list, with
numbers kept as their raw lexemes. -/

inductive Json where
  | null
  | bool (b : Bool)
  | num (raw : String)
  | str (s : String)
  | arr (items : List Json)
  | obj (fields : List (String × Json))

/-- JSON insignificant whitespace. -/
def jsonWs (c : Char) : Bool := c = ' ' || c = '\t' || c = '\n' || c = '\r'

/-- Drop leading JSON whitespace. -/
def skipWs : List Char → List Char
  | [] => []
  | c :: cs => if jsonWs c then skipWs cs else c :: cs

def isDigitChar (c : Char) : Bool := '0' ≤ c && c ≤ '9'

def isHexChar (c : Char) : Bool :=
  isDigitChar c || ('a' ≤ c && c ≤ 'f') || ('A' ≤ c && c ≤ 'F')

def hexVal (c : Char) : Nat :=
  if isDigitChar c then c.toNat - 48
  else if 'a' ≤ c && c ≤ 'f' then c.toNat - 87
  else c.toNat - 55

/-- Body of a JSON string, after the opening quote; returns the decoded
string and the input after the closing quote. -/
def parseStringBody : Nat → List Char → Option (String × List Char)
  | 0, _ => none
  | _, [] => none
  | fuel+1, c :: cs =>
    if c = '"' then some ("", cs)
    else if c = '\\' then
      match cs with
      | [] => none
      | e :: cs' =>
        let dec : Option (Char × List Char) :=
          if e = '"' then some ('"', cs')
          else if e = '\\' then some ('\\', cs')
          else if e = '/' then some ('/', cs')
          else if e = 'b' then some (Char.ofNat 8, cs')
          else if e = 'f' then some (Char.ofNat 12, cs')
          else if e = 'n' then some ('\n', cs')
          else if e = 'r' then some ('\r', cs')
          else if e = 't' then some ('\t', cs')
          else if e = 'u' then
            match cs' with
            | h1 :: h2 :: h3 :: h4 :: rest =>
              if isHexChar h1 && isHexChar h2 && isHexChar h3 && isHexChar h4 then
                some (Char.ofNat
                  (hexVal h1 * 4096 + hexVal h2 * 256 + hexVal h3 * 16 + hexVal h4), rest)
              else none
            | _ => none
          else none
        match dec with
        | none => none
        | some (d, rest) =>
          match parseStringBody fuel rest with
          | some (s, rem) => some (String.mk (d :: s.toList), rem)
          | none => none
    else if c.toNat < 32 then none
    else
      match parseStringBody fuel cs with
      | some (s, rem) => some (String.mk (c :: s.toList), rem)
      | none => none

/-- Longest leading run of decimal digits. -/
def takeDigits : List Char → List Char × List Char
  | [] => ([], [])
  | c :: cs =>
    if isDigitChar c then
      let p := takeDigits cs
      (c :: p.1, p.2)
    else ([], c :: cs)

/-- JSON integer part: `0`, or a nonzero digit followed by digits. -/
def parseIntPart : List Char → Option (List Char × List Char)
  | [] => none
  | c :: cs =>
    if c = '0' then some ([c], cs)
    else if isDigitChar c then
      let p := takeDigits cs
      some (c :: p.1, p.2)
    else none

/-- Optional JSON fraction part: `.` followed by at least one digit. -/
def parseFracPart : List Char → Option (List Char × List Char)
  | c :: cs =>
    if c = '.' then
      match takeDigits cs with
      | ([], _) => none
      | (ds, rest) => some (c :: ds, rest)
    else some ([], c :: cs)
  | [] => some ([], [])

/-- Optional JSON exponent part: `e`/`E`, optional sign, at least one digit. -/
def parseExpPart : List Char → Option (List Char × List Char)
  | c :: cs =>
    if c = 'e' || c = 'E' then
      let sp : List Char × List Char :=
        match cs with
        | s :: rest => if s = '+' || s = '-' then ([s], rest) else ([], s :: rest)
        | [] => ([], [])
      match takeDigits sp.2 with
      | ([], _) => none
      | (ds, rest) => some (c :: (sp.1 ++ ds), rest)
    else some ([], c :: cs)
  | [] => some ([], [])

/-- A JSON number, kept as its raw lexeme. -/
def parseNumber (cs : List Char) : Option (Json × List Char) :=
  let np : List Char × List Char :=
    match cs with
    | c :: rest => if c = '-' then ([c], rest) else ([], c :: rest)
    | [] => ([], [])
  match parseIntPart np.2 with
  | none => none
  | some (ip, cs2) =>
    match parseFracPart cs2 with
    | none => none
    | some (fp, cs3) =>
      match parseExpPart cs3 with
      | none => none
      | some (ep, cs4) => some (.num (String.mk (np.1 ++ ip ++ fp ++ ep)), cs4)

def lbraceChar : Char := Char.ofNat 123

def rbraceChar : Char := Char.ofNat 125

mutual

/-- A JSON value, preceded by optional whitespace. -/
def parseValue : Nat → List Char → Option (Json × List Char)
  | 0, _ => none
  | fuel+1, cs =>
    match skipWs cs with
    | [] => none
    | c :: rest =>
      if c = 'n' then
        match rest with
        | 'u' :: 'l' :: 'l' :: r => some (.null, r)
        | _ => none
      else if c = 't' then
        match rest with
        | 'r' :: 'u' :: 'e' :: r => some (.bool true, r)
        | _ => none
      else if c = 'f' then
        match rest with
        | 'a' :: 'l' :: 's' :: 'e' :: r => some (.bool false, r)
        | _ => none
      else if c = '"' then
        match parseStringBody (rest.length + 1) rest with
        | some (s, r) => some (.str s, r)
        | none => none
      else if c = '[' then
        match skipWs rest with
        | ']' :: r => some (.arr [], r)
        | cs1 =>
          match parseElements fuel cs1 with
          | some (items, r) => some (.arr items, r)
          | none => none
      else if c = lbraceChar then
        match skipWs rest with
        | c1 :: r =>
          if c1 = rbraceChar then some (.obj [], r)
          else
            match parseMembers fuel (c1 :: r) with
            | some (fields, r1) => some (.obj fields, r1)
            | none => none
        | [] => none
      else parseNumber (c :: rest)

/-- Comma-separated JSON array elements followed by `]`. -/
def parseElements : Nat → List Char → Option (List Json × List Char)
  | 0, _ => none
  | fuel+1, cs =>
    match parseValue fuel cs with
    | none => none
    | some (j, rest) =>
      match skipWs rest with
      | ',' :: r =>
        match parseElements fuel r with
        | some (items, r1) => some (j :: items, r1)
        | none => none
      | ']' :: r => some ([j], r)
      | _ => none

/-- Comma-separated JSON object members followed by the closing brace. -/
def parseMembers : Nat → List Char → Option (List (String × Json) × List Char)
  | 0, _ => none
  | fuel+1, cs =>
    match skipWs cs with
    | '"' :: rest =>
      match parseStringBody (rest.length + 1) rest with
      | none => none
      | some (key, r1) =>
        match skipWs r1 with
        | ':' :: r2 =>
          match parseValue fuel r2 with
          | none => none
          | some (v, r3) =>
            match skipWs r3 with
            | ',' :: r4 =>
              match parseMembers fuel r4 with
              | some (fields, r5) => some ((key, v) :: fields, r5)
              | none => none
            | c4 :: r4 =>
              if c4 = rbraceChar then some ([(key, v)], r4) else none
            | [] => none
        | _ => none
    | _ => none

end

/-- `JSON.parse(s)`: parse one value, then require only whitespace to
remain.  `none` models a thrown `SyntaxError`. -/
def parseJson (s : String) : Option Json :=
  match parseValue (s.length * 2 + 4) s.toList with
  | some (j, rest) => if skipWs rest = [] then some j else none
  | none => none

/-- The load effect (Index.tsx lines 288-298): what `setTasks` receives.
`none` means `setTasks` is never called and the initial `[]` stays: that
happens when the stored slot is absent, the stored string is empty (falsy),
or `JSON.parse` throws (the catch block only logs).  Any successfully
parsed value is installed verbatim, with no shape validation. -/
def loadEffect (stored : Option String) : Option Json :=
  match stored with
  | none => none
  | some s =>
    if s = "" then none
    else
      match parseJson s with
      | none => none
      | some j => some j

/-- The `tasks` state after the load effect, as a JSON value: the initial
empty list serializes as `Json.arr []`; an installed parsed value is kept
as is. -/
def tasksJsonAfterLoad (stored : Option String) : Json :=
  match loadEffect stored with
  | none => .arr []
  | some j => j

/-- First value bound to `key` in an object's field list. -/
def lookupField (fields : List (String × Json)) (key : String) : Option Json :=
  match fields with
  | [] => none
  | (k, v) :: rest => if k = key then some v else lookupField rest key

def isStringJson : Json → Bool
  | .str _ => true
  | _ => false

def isBoolJson : Json → Bool
  | .bool _ => true
  | _ => false

def isPriorityJson : Json → Bool
  | .str s => s = "high" || s = "medium" || s = "low"
  | _ => false

/-- Modelled from the spec: the shape of one serialized `Task` — required
string fields `id`, `title`, `createdAt`, required boolean `completed`,
required priority among high/medium/low, optional string fields
`description` and `dueDate`.  The repository has no such checker; this
definition follows the spec's data model in order to state what "a valid
serialization of a task list" means. -/
def isTaskJson : Json → Bool
  | .obj fields =>
    (match lookupField fields "id" with
     | some j => isStringJson j
     | none => false) &&
    (match lookupField fields "title" with
     | some j => isStringJson j
     | none => false) &&
    (match lookupField fields "priority" with
     | some j => isPriorityJson j
     | none => false) &&
    (match lookupField fields "completed" with
     | some j => isBoolJson j
     | none => false) &&
    (match lookupField fields "createdAt" with
     | some j => isStringJson j
     | none => false) &&
    (match lookupField fields "description" with
     | some j => isStringJson j
     | none => true) &&
    (match lookupField fields "dueDate" with
     | some j => isStringJson j
     | none => true)
  | _ => false

/-- Modelled from the spec: "a valid serialization of a task list" is a JSON
array all of whose elements are serialized tasks. -/
def isTaskListJson : Json → Bool
  | .arr items => items.all isTaskJson
  | _ => false

/-! ### Derived definitions used by the verification -/

/-- The timer state owned by `Index`: `useTimer(3600)` (Index.tsx line 285). -/
def appTimerInit : TimerState := initTimer 3600

/-- The state after `start()` followed by `n` firings of the interval
callback, starting from the app's initial timer state. -/
def runTimer (n : Nat) : TimerState := tick^[n] (startTimer appTimerInit)

/-- All fields of a task except `completed`, used to state what a completion
toggle leaves untouched. -/
def stripCompleted (t : Task) :
    String × String × Option String × Priority × Option String × String :=
  (t.id, t.title, t.description, t.priority, t.dueDate, t.createdAt)

/-- The spec's filter predicate, written from the claim's words: the title or
the description contains the query as a case-insensitive substring. -/
def matchesQuerySpec (query : String) (t : Task) : Bool :=
  jsIncludes (jsToLower t.title) (jsToLower query) ||
    (match t.description with
     | some d => jsIncludes (jsToLower d) (jsToLower query)
     | none => false)

/-- The claim's reading of `format(seconds)`: `floor(s/60)` in decimal,
zero-padded to (at least) two digits, a colon, and `s mod 60` in decimal,
zero-padded to (at least) two digits. -/
def formatTimeSpec (s : Nat) : String :=
  (if s / 60 < 10 then "0" ++ Nat.repr (s / 60) else Nat.repr (s / 60)) ++ ":" ++
    (if s % 60 < 10 then "0" ++ Nat.repr (s % 60) else Nat.repr (s % 60))

/-- A concrete task used by the C6 witness. -/
def c6SampleTask : Task :=
  { id := "a", title := "Report", description := some "Weekly status",
    priority := .high, completed := false, dueDate := none, createdAt := "t0" }

/-- A concrete task used by the C7 witness. -/
def c7SampleTask : Task :=
  { id := "b", title := "Review", description := some "Code review",
    priority := .low, completed := true, dueDate := some "2024-01-02", createdAt := "t1" }

/-- The task built by `handleSubmit` for the C10 witness's concrete input. -/
def c10SampleTask : Task :=
  { id := "fresh-id", title := " a ", description := some "", priority := .medium,
    completed := false, dueDate := none, createdAt := "ts-0" }

/-! ### Helper lemmas -/

theorem filterTasks_empty (tasks : List Task) : filterTasks "" tasks = tasks := rfl

theorem tick_not_running (s : TimerState) (h : s.running = false) : tick s = s := by
  simp [tick, h]

theorem runTimer_eq : ∀ n : Nat, n ≤ 3600 →
    runTimer n =
      { timeRemaining := 3600 - (n : Int),
        isTimeUp := decide (n = 3600),
        timerRef := true,
        running := decide (n ≠ 3600) } := by
  intro n
  induction n with
  | zero => intro _; decide
  | succ n ih =>
    intro h
    have hn : n ≤ 3600 := by omega
    have hlt : n < 3600 := by omega
    have step : runTimer (n + 1) = tick (runTimer n) := by
      simp [runTimer, Function.iterate_succ_apply']
    rw [step, ih hn]
    have hne : decide (n ≠ 3600) = true := by simp; omega
    have hq : decide (n = 3600) = false := by simp; omega
    by_cases h9 : n = 3599
    · subst h9; decide
    · have h2 : ¬((3600 - (n : Int)) ≤ 1) := by omega
      have hq2 : decide (n + 1 = 3600) = false := by simp; omega
      have hne2 : decide (n + 1 ≠ 3600) = true := by simp; omega
      simp only [tick, hne, if_true]
      rw [if_neg h2]
      simp only [TimerState.mk.injEq, hq, hq2, hne, hne2]
      exact ⟨by push_cast; omega, trivial, trivial, trivial⟩

theorem toDigitsCore_len_lower (b : Nat) :
    ∀ (f : Nat), 0 < f → ∀ (m : Nat) (l : List Char),
      l.length + 1 ≤ (Nat.toDigitsCore b f m l).length := by
  intro f
  induction f with
  | zero => intro h; omega
  | succ f ih =>
    intro _ m l
    simp only [Nat.toDigitsCore]
    by_cases hd : m / b = 0
    · simp [hd]
    · simp only [hd, if_false]
      rcases Nat.eq_zero_or_pos f with hf | hf
      · subst hf; simp [Nat.toDigitsCore]
      · have h2 := ih hf (m / b) (Nat.digitChar (m % b) :: l)
        simp only [List.length_cons] at h2
        omega

theorem toDigitsCore_len_lower2 (b : Nat) :
    ∀ (f m : Nat) (l : List Char), m < b ^ f → m / b ≠ 0 →
      l.length + 2 ≤ (Nat.toDigitsCore b f m l).length := by
  intro f
  cases f with
  | zero =>
    intro m l hm hd
    simp only [pow_zero, Nat.lt_one_iff] at hm
    subst hm
    exact absurd (Nat.zero_div b) hd
  | succ f =>
    intro m l hm hd
    simp only [Nat.toDigitsCore, hd, if_false]
    have hf : 0 < f := by
      rcases Nat.eq_zero_or_pos f with h0 | h0
      · subst h0
        have hmb : m < b := by simpa using hm
        exact absurd (Nat.div_eq_of_lt hmb) hd
      · exact h0
    have h2 := toDigitsCore_len_lower b f hf (m / b) (Nat.digitChar (m % b) :: l)
    simp only [List.length_cons] at h2
    omega

theorem repr_len_ge_two (n : Nat) (h : 10 ≤ n) : 2 ≤ (Nat.repr n).length := by
  have hd : n / 10 ≠ 0 := by intro h0; omega
  have hpow : n < 10 ^ (n + 1) := by
    calc n < 2 ^ n := Nat.lt_two_pow n
    _ ≤ 10 ^ n := Nat.pow_le_pow_left (by omega) n
    _ ≤ 10 ^ (n + 1) := Nat.pow_le_pow_right (by omega) (by omega)
  simp only [Nat.repr, Nat.toDigits, String.length, List.asString]
  have h2 := toDigitsCore_len_lower2 10 (n + 1) n [] hpow hd
  simp only [List.length_nil] at h2
  omega

theorem repr_len_one (n : Nat) (h : n < 10) :
    padStart (Nat.repr n) 2 '0' = "0" ++ Nat.repr n := by
  interval_cases n <;> decide

theorem padStart_repr_two (n : Nat) :
    padStart (Nat.repr n) 2 '0' = if n < 10 then "0" ++ Nat.repr n else Nat.repr n := by
  by_cases h : n < 10
  · rw [if_pos h]
    exact repr_len_one n h
  · rw [if_neg h]
    unfold padStart
    rw [if_pos (repr_len_ge_two n (by omega))]

theorem toggle_pointwise_invol (toggleId : String) (t : Task) :
    (fun task => if task.id = toggleId then
      { task with completed := !task.completed } else task)
    ((fun task => if task.id = toggleId then
      { task with completed := !task.completed } else task) t) = t := by
  by_cases h : t.id = toggleId
  · subst h
    simp [Bool.not_not]
  · simp [h]

theorem map_twice_invol {α : Type} (f : α → α) (h : ∀ x, f (f x) = x) (l : List α) :
    (l.map f).map f = l := by
  induction l with
  | nil => rfl
  | cons x xs ih => simp [h x, ih]

theorem toggle_strip (tasks : List Task) (toggleId : String) :
    (handleToggleComplete tasks toggleId).map stripCompleted = tasks.map stripCompleted := by
  rw [handleToggleComplete, List.map_map]
  apply List.map_congr_left
  intro t _
  by_cases h : t.id = toggleId
  · simp [Function.comp, h, stripCompleted]
  · simp [Function.comp, h]

theorem toList_ne_nil (s : String) (h : s ≠ "") : s.toList ≠ [] := by
  intro hl
  apply h
  cases s with
  | mk data =>
    simp only [String.toList, String.data] at hl
    simp [hl]

theorem matchesQuery_eq_spec (query : String) (t : Task) (h : query ≠ "") :
    matchesQuery (jsToLower query) t = matchesQuerySpec query t := by
  rw [matchesQuery, matchesQuerySpec]
  congr 1
  cases hd : t.description with
  | none => rfl
  | some d =>
    simp only
    by_cases hde : d = ""
    · subst hde
      have hq : jsIncludes (jsToLower "") (jsToLower query) = false := by
        have h0 : jsToLower "" = ([] : List Char) := rfl
        rw [jsIncludes, h0]
        simp only [decide_eq_false_iff_not, List.infix_nil]
        rw [jsToLower]
        simp only [List.map_eq_nil_iff]
        exact toList_ne_nil query h
      simp [hq]
    · simp [hde]

/-! ### Claim theorems -/

/-- C1 counterexample: the state reached after expiry (3600 ticks from the
started initial state) is reachable, its countdown is not running, its
expired flag is set — and `start()` leaves it completely unchanged: it does
not clear the expired flag and does not begin the countdown, because
`timerRef.current` still holds the stale interval id.  This contradicts the
claim that in every reachable non-running state (including the post-expiry
state) `start()` clears the flag and begins the countdown. -/
theorem c1_counterexample_start_after_expiry :
    (runTimer 3600).running = false ∧
    (runTimer 3600).isTimeUp = true ∧
    startTimer (runTimer 3600) = runTimer 3600 := by
  rw [runTimer_eq 3600 (le_refl _)]
  exact ⟨by decide, by decide, by decide⟩

/-- C1 (amended): `start()` clears the expired flag and begins the countdown
exactly when the timer reference is unset — the initial state and any state
after `reset()`; whenever the reference is set, which covers both the running
states and the post-expiry state before a reset, `start()` has no effect
(in particular repeated calls while running change nothing). -/
theorem c1_start_only_when_ref_unset (s : TimerState) :
    (s.timerRef = false →
      startTimer s =
        { timeRemaining := s.timeRemaining, isTimeUp := false,
          timerRef := true, running := true }) ∧
    (s.timerRef = true → startTimer s = s) := by
  constructor
  · intro h
    simp [startTimer, h]
  · intro h
    simp [startTimer, h]

/-- C1 witness: at the concrete initial state, `start()` begins the countdown
and a second `start()` is a no-op. -/
theorem c1_start_only_when_ref_unset_witness :
    startTimer (initTimer 3600) =
      { timeRemaining := 3600, isTimeUp := false, timerRef := true, running := true } ∧
    startTimer (startTimer (initTimer 3600)) = startTimer (initTimer 3600) :=
  ⟨(c1_start_only_when_ref_unset (initTimer 3600)).1 rfl,
   (c1_start_only_when_ref_unset (startTimer (initTimer 3600))).2 rfl⟩

/-- C2: for the timer started from 3600 — every tick before expiry decrements
`timeRemaining` by one; a tick of any running state clamps at zero (it maps
`t` to `max 0 (t - 1)`); after 3600 ticks the remaining time is zero, the
expired flag is set, and the countdown is stopped; the flag was false at
every earlier point (so it becomes true exactly once); every further tick
leaves the state unchanged until `reset()`, and `reset()` after expiry
restores the initial 3600-second, unexpired state. -/
theorem c2_countdown_from_3600 :
    (∀ n : Nat, n < 3600 →
      (runTimer (n + 1)).timeRemaining = (runTimer n).timeRemaining - 1) ∧
    (∀ s : TimerState, s.running = true →
      (tick s).timeRemaining = max 0 (s.timeRemaining - 1)) ∧
    (runTimer 3600).timeRemaining = 0 ∧
    (runTimer 3600).isTimeUp = true ∧
    (runTimer 3600).running = false ∧
    (∀ n : Nat, n < 3600 → (runTimer n).isTimeUp = false) ∧
    (∀ m : Nat, runTimer (3600 + m) = runTimer 3600) ∧
    resetTimer (runTimer 3600) 3600 = appTimerInit := by
  refine ⟨?_, ?_, ?_, ?_, ?_, ?_, ?_, ?_⟩
  · intro n hn
    rw [runTimer_eq n (by omega), runTimer_eq (n + 1) (by omega)]
    show (3600 : Int) - ((n : Nat) + 1 : Nat) = 3600 - (n : Nat) - 1
    push_cast
    omega
  · intro s hs
    simp only [tick, hs, if_true]
    rcases le_or_lt s.timeRemaining 1 with h1 | h1
    · rw [if_pos h1]
      show (0 : Int) = max 0 (s.timeRemaining - 1)
      rw [max_eq_left (by omega)]
    · rw [if_neg (by omega)]
      show s.timeRemaining - 1 = max 0 (s.timeRemaining - 1)
      rw [max_eq_right (by omega)]
  · rw [runTimer_eq 3600 (le_refl _)]; decide
  · rw [runTimer_eq 3600 (le_refl _)]; decide
  · rw [runTimer_eq 3600 (le_refl _)]; decide
  · intro n hn
    rw [runTimer_eq n (by omega)]
    simp
    omega
  · intro m
    induction m with
    | zero => rfl
    | succ m ih =>
      have hms : 3600 + (m + 1) = (3600 + m) + 1 := by omega
      have step : runTimer (3600 + (m + 1)) = tick (runTimer (3600 + m)) := by
        rw [hms]
        simp [runTimer, Function.iterate_succ_apply']
      rw [step, ih]
      apply tick_not_running
      rw [runTimer_eq 3600 (le_refl _)]
      decide
  · rw [runTimer_eq 3600 (le_refl _)]
    rfl

/-- C2 witness: the hypothesised parts of C2 at concrete inputs — the first
tick decrements from 3600 to 3599, a concrete running state is clamped, and
the expired flag is still false after 7 ticks. -/
theorem c2_countdown_from_3600_witness :
    (runTimer 1).timeRemaining = (runTimer 0).timeRemaining - 1 ∧
    (tick (startTimer appTimerInit)).timeRemaining =
      max 0 ((startTimer appTimerInit).timeRemaining - 1) ∧
    (runTimer 7).isTimeUp = false :=
  ⟨c2_countdown_from_3600.1 0 (by omega),
   c2_countdown_from_3600.2.1 (startTimer appTimerInit) (by decide),
   c2_countdown_from_3600.2.2.2.2.2.1 7 (by omega)⟩

/-- C3: `create` with a title that is empty after trimming performs no
mutation of the task list and reports exactly the field-level error keyed
`"title"`.  The embedded operation is a total function, so no exception can
escape to the caller. -/
theorem c3_create_empty_title_no_mutation (tasks : List Task) (form : TaskFormState)
    (freshId now : String) (h : jsTrim form.title = "") :
    createTask tasks form freshId now = (tasks, [("title", "Title is required.")]) := by
  simp [createTask, handleSubmit, h]

/-- C3 witness: a whitespace-only title on the empty list. -/
theorem c3_create_empty_title_no_mutation_witness :
    createTask [] { title := "   ", description := "", priority := .medium, dueDate := "" }
      "id-1" "ts-0" = ([], [("title", "Title is required.")]) :=
  c3_create_empty_title_no_mutation [] _ _ _ (by decide)

/-- C4: for every input whose title is non-empty after trimming, `create`
succeeds with no errors, builds a task carrying the fresh id, the current
timestamp as `createdAt` and the submitted title, prepends it, and
`filter("")` on the resulting list puts a task with that title at index 0;
if the fresh id is new and ids were unique before, they remain unique. -/
theorem c4_create_valid_prepends (tasks : List Task) (form : TaskFormState)
    (freshId now : String) (h : jsTrim form.title ≠ "") :
    ∃ t : Task,
      createTask tasks form freshId now = (t :: tasks, []) ∧
      t.id = freshId ∧
      t.createdAt = now ∧
      t.title = form.title ∧
      (filterTasks "" (createTask tasks form freshId now).1).head? = some t ∧
      ((tasks.map Task.id).Nodup → freshId ∉ tasks.map Task.id →
        ((createTask tasks form freshId now).1.map Task.id).Nodup) := by
  have hc : createTask tasks form freshId now =
      ({ id := freshId, title := form.title, description := some form.description,
         priority := form.priority, completed := false,
         dueDate := if form.dueDate = "" then none else some form.dueDate,
         createdAt := now } :: tasks, []) := by
    simp [createTask, handleSubmit, handleAddTask, h]
  refine ⟨_, hc, rfl, rfl, rfl, ?_, ?_⟩
  · rw [hc, filterTasks_empty]
    rfl
  · intro hnd hfresh
    rw [hc]
    simp only [List.map_cons, List.nodup_cons]
    exact ⟨hfresh, hnd⟩

/-- C4 witness: creating a task titled "Report" on a one-task list. -/
theorem c4_create_valid_prepends_witness :
    ∃ t : Task,
      createTask [c10SampleTask]
        { title := "Report", description := "", priority := .high, dueDate := "" }
        "id-9" "ts-9" = (t :: [c10SampleTask], []) ∧
      t.id = "id-9" ∧
      t.createdAt = "ts-9" ∧
      t.title = "Report" ∧
      (filterTasks ""
        (createTask [c10SampleTask]
          { title := "Report", description := "", priority := .high, dueDate := "" }
          "id-9" "ts-9").1).head? = some t ∧
      (([c10SampleTask].map Task.id).Nodup → "id-9" ∉ [c10SampleTask].map Task.id →
        ((createTask [c10SampleTask]
          { title := "Report", description := "", priority := .high, dueDate := "" }
          "id-9" "ts-9").1.map Task.id).Nodup) :=
  c4_create_valid_prepends [c10SampleTask]
    { title := "Report", description := "", priority := .high, dueDate := "" }
    "id-9" "ts-9" (by decide)

/-- C5: `update` with a valid title replaces exactly the tasks whose id
matches the edited task's id, in place: the new task keeps the original's
`id`, `createdAt` and `completed` while taking title, description, priority
and due date from the input; if no task carries that id the list is
unchanged; length is preserved and every position holding a non-matching
task is untouched.  The hypotheses that the original's `id` and `createdAt`
are non-empty are the spec's data-model invariants (an assigned opaque id
and a creation timestamp); they matter because the source rebuilds both
fields with JavaScript `||`, under which an empty string would be replaced. -/
theorem c5_update_in_place (tasks : List Task) (orig : Task) (form : TaskFormState)
    (freshId now : String) (hid : orig.id ≠ "") (hca : orig.createdAt ≠ "")
    (ht : jsTrim form.title ≠ "") :
    ∃ t : Task,
      updateTask tasks orig form freshId now =
        (tasks.map fun task => if task.id = orig.id then t else task, []) ∧
      t.id = orig.id ∧
      t.createdAt = orig.createdAt ∧
      t.completed = orig.completed ∧
      t.title = form.title ∧
      t.description = some form.description ∧
      t.priority = form.priority ∧
      t.dueDate = (if form.dueDate = "" then none else some form.dueDate) ∧
      ((∀ task ∈ tasks, task.id ≠ orig.id) →
        (updateTask tasks orig form freshId now).1 = tasks) ∧
      (updateTask tasks orig form freshId now).1.length = tasks.length ∧
      (∀ (i : Nat) (t0 : Task), tasks[i]? = some t0 → t0.id ≠ orig.id →
        (updateTask tasks orig form freshId now).1[i]? = some t0) := by
  have hir : jsOrString orig.id freshId = orig.id := by simp [jsOrString, hid]
  have hcr : jsOrString orig.createdAt now = orig.createdAt := by simp [jsOrString, hca]
  have hc : updateTask tasks orig form freshId now =
      (tasks.map fun task => if task.id = orig.id then
        { id := orig.id, title := form.title, description := some form.description,
          priority := form.priority, completed := orig.completed,
          dueDate := if form.dueDate = "" then none else some form.dueDate,
          createdAt := orig.createdAt } else task, []) := by
    simp [updateTask, handleSubmit, ht, handleSaveEditedTask, hir, hcr]
  refine ⟨_, hc, rfl, rfl, rfl, rfl, rfl, rfl, rfl, ?_, ?_, ?_⟩
  · intro habs
    rw [hc]
    simp only
    have hpt : ∀ task ∈ tasks, (if task.id = orig.id then
        ({ id := orig.id, title := form.title, description := some form.description,
           priority := form.priority, completed := orig.completed,
           dueDate := if form.dueDate = "" then none else some form.dueDate,
           createdAt := orig.createdAt } : Task) else task) = task := by
      intro task htask
      rw [if_neg (habs task htask)]
    calc tasks.map _ = tasks.map id := List.map_congr_left hpt
    _ = tasks := List.map_id tasks
  · rw [hc]
    simp
  · intro i t0 hget hne
    rw [hc]
    simp only [List.getElem?_map, hget, Option.map_some']
    rw [if_neg hne]

/-- C5 witness: editing the title of the only matching task in a two-task
list; the non-matching task at index 1 is untouched. -/
theorem c5_update_in_place_witness :
    ∃ t : Task,
      updateTask [c6SampleTask, c7SampleTask] c6SampleTask
        { title := "New title", description := "d", priority := .low, dueDate := "" }
        "id-7" "ts-7" =
        ([c6SampleTask, c7SampleTask].map
          fun task => if task.id = c6SampleTask.id then t else task, []) ∧
      t.id = c6SampleTask.id ∧
      t.createdAt = c6SampleTask.createdAt ∧
      t.completed = c6SampleTask.completed ∧
      t.title = "New title" ∧
      t.description = some "d" ∧
      t.priority = .low ∧
      t.dueDate = (if ("" : String) = "" then none else some "") ∧
      ((∀ task ∈ [c6SampleTask, c7SampleTask], task.id ≠ c6SampleTask.id) →
        (updateTask [c6SampleTask, c7SampleTask] c6SampleTask
          { title := "New title", description := "d", priority := .low, dueDate := "" }
          "id-7" "ts-7").1 = [c6SampleTask, c7SampleTask]) ∧
      (updateTask [c6SampleTask, c7SampleTask] c6SampleTask
        { title := "New title", description := "d", priority := .low, dueDate := "" }
        "id-7" "ts-7").1.length = [c6SampleTask, c7SampleTask].length ∧
      (∀ (i : Nat) (t0 : Task), [c6SampleTask, c7SampleTask][i]? = some t0 →
        t0.id ≠ c6SampleTask.id →
        (updateTask [c6SampleTask, c7SampleTask] c6SampleTask
          { title := "New title", description := "d", priority := .low, dueDate := "" }
          "id-7" "ts-7").1[i]? = some t0) :=
  c5_update_in_place [c6SampleTask, c7SampleTask] c6SampleTask
    { title := "New title", description := "d", priority := .low, dueDate := "" }
    "id-7" "ts-7" (by decide) (by decide) (by decide)

/-- C6: toggling completion twice with the same id restores the list exactly;
any number of toggles changes nothing but the `completed` fields (ids,
titles, descriptions, priorities, due dates and creation timestamps of every
task are untouched, and so is the order); toggling an id absent from the
list leaves it unchanged. -/
theorem c6_toggle_involution (tasks : List Task) (toggleId : String) :
    handleToggleComplete (handleToggleComplete tasks toggleId) toggleId = tasks ∧
    (∀ n : Nat,
      ((fun l => handleToggleComplete l toggleId)^[n] tasks).map stripCompleted =
        tasks.map stripCompleted) ∧
    ((∀ t ∈ tasks, t.id ≠ toggleId) → handleToggleComplete tasks toggleId = tasks) := by
  refine ⟨?_, ?_, ?_⟩
  · rw [handleToggleComplete, handleToggleComplete]
    exact map_twice_invol _ (toggle_pointwise_invol toggleId) tasks
  · intro n
    induction n with
    | zero => rfl
    | succ n ih =>
      rw [Function.iterate_succ_apply']
      calc (handleToggleComplete ((fun l => handleToggleComplete l toggleId)^[n] tasks)
              toggleId).map stripCompleted
          = (((fun l => handleToggleComplete l toggleId)^[n] tasks)).map stripCompleted :=
            toggle_strip _ toggleId
        _ = tasks.map stripCompleted := ih
  · intro habs
    rw [handleToggleComplete]
    have hpt : ∀ t ∈ tasks, (if t.id = toggleId then
        { t with completed := !t.completed } else t) = t := by
      intro t htv
      rw [if_neg (habs t htv)]
    calc tasks.map _ = tasks.map id := List.map_congr_left hpt
    _ = tasks := List.map_id tasks

/-- C6 witness: a double toggle on a concrete one-task list, five toggles
preserving every non-completion field, and an absent id leaving the list
unchanged. -/
theorem c6_toggle_involution_witness :
    handleToggleComplete (handleToggleComplete [c6SampleTask] "a") "a" = [c6SampleTask] ∧
    ((fun l => handleToggleComplete l "a")^[5] [c6SampleTask]).map stripCompleted =
      [c6SampleTask].map stripCompleted ∧
    handleToggleComplete [c6SampleTask] "zz" = [c6SampleTask] :=
  ⟨(c6_toggle_involution [c6SampleTask] "a").1,
   (c6_toggle_involution [c6SampleTask] "a").2.1 5,
   (c6_toggle_involution [c6SampleTask] "zz").2.2 (by decide)⟩

/-- C7: the filter is a pure derivation — an empty-after-trimming query
returns the full list unchanged in order; the result is always an ordered
subsequence (sublist) of the input; for a non-trivial query the result is
exactly the tasks whose title or description contains the query as a
case-insensitive substring, and membership in the result is characterised
accordingly. -/
theorem c7_filter_spec (searchQuery : String) (tasks : List Task) :
    (jsTrim searchQuery = "" → filterTasks searchQuery tasks = tasks) ∧
    List.Sublist (filterTasks searchQuery tasks) tasks ∧
    (jsTrim searchQuery ≠ "" →
      filterTasks searchQuery tasks = tasks.filter (matchesQuerySpec searchQuery)) ∧
    (∀ t, t ∈ filterTasks searchQuery tasks ↔
      t ∈ tasks ∧ (jsTrim searchQuery = "" ∨ matchesQuerySpec searchQuery t = true)) := by
  have hq : jsTrim searchQuery ≠ "" → searchQuery ≠ "" := by
    intro h hc
    subst hc
    exact h rfl
  refine ⟨?_, ?_, ?_, ?_⟩
  · intro h
    rw [filterTasks, if_pos h]
  · rw [filterTasks]
    by_cases h : jsTrim searchQuery = ""
    · rw [if_pos h]
    · rw [if_neg h]
      exact List.filter_sublist tasks
  · intro h
    rw [filterTasks, if_neg h]
    apply List.filter_congr
    intro t _
    exact matchesQuery_eq_spec searchQuery t (hq h)
  · intro t
    by_cases h : jsTrim searchQuery = ""
    · rw [filterTasks, if_pos h]
      simp [h]
    · rw [filterTasks, if_neg h]
      simp only [List.mem_filter, h, false_or]
      rw [matchesQuery_eq_spec searchQuery t (hq h)]

/-- C7 witness: a whitespace-only query returns the whole list; a mixed-case
query filters by the case-insensitive spec predicate. -/
theorem c7_filter_spec_witness :
    filterTasks " " [c7SampleTask] = [c7SampleTask] ∧
    filterTasks "RevIEW" [c7SampleTask] = [c7SampleTask].filter (matchesQuerySpec "RevIEW") :=
  ⟨(c7_filter_spec " " [c7SampleTask]).1 (by decide),
   (c7_filter_spec "RevIEW" [c7SampleTask]).2.2.1 (by decide)⟩

/-- C8 counterexample: the stored string "42" parses as JSON (so `JSON.parse`
does not throw) but is not a valid serialization of a task list — yet the
load effect installs the number 42 as the tasks state instead of falling
back to the empty list, because the source validates nothing beyond parse
success.  This refutes the claim that every malformed stored content yields
the empty task list. -/
theorem c8_counterexample_unvalidated_json :
    parseJson "42" = some (Json.num "42") ∧
    isTaskListJson (Json.num "42") = false ∧
    tasksJsonAfterLoad (some "42") = Json.num "42" ∧
    tasksJsonAfterLoad (some "42") ≠ Json.arr [] := by
  refine ⟨rfl, rfl, rfl, ?_⟩
  intro hcontra
  exact Json.noConfusion hcontra

/-- C8 (amended): the load effect yields the empty task list, with no error
propagating (the embedded operation is total), exactly when the stored slot
is absent, holds the empty string, or holds content on which `JSON.parse`
throws; syntactically valid JSON is installed as parsed, without shape
validation. -/
theorem c8_load_soft_fail (stored : Option String) :
    (stored = none → tasksJsonAfterLoad stored = Json.arr []) ∧
    (∀ s, stored = some s → s = "" → tasksJsonAfterLoad stored = Json.arr []) ∧
    (∀ s, stored = some s → parseJson s = none → tasksJsonAfterLoad stored = Json.arr []) := by
  refine ⟨?_, ?_, ?_⟩
  · intro h
    subst h
    rfl
  · intro s hs he
    subst hs
    subst he
    rfl
  · intro s hs hp
    subst hs
    by_cases hse : s = ""
    · simp [tasksJsonAfterLoad, loadEffect, hse]
    · simp [tasksJsonAfterLoad, loadEffect, hse, hp]

/-- C8 witness: an absent slot, an empty stored string, and an unparsable
stored string all yield the empty list. -/
theorem c8_load_soft_fail_witness :
    tasksJsonAfterLoad none = Json.arr [] ∧
    tasksJsonAfterLoad (some "") = Json.arr [] ∧
    tasksJsonAfterLoad (some "not json") = Json.arr [] :=
  ⟨(c8_load_soft_fail none).1 rfl,
   (c8_load_soft_fail (some "")).2.1 "" rfl rfl,
   (c8_load_soft_fail (some "not json")).2.2 "not json" rfl rfl⟩

/-- C9: `format(seconds)` is a pure total function and, for every
non-negative integer, equals the spec's reading: minutes `floor(s/60)` and
seconds `s mod 60`, each rendered in decimal and zero-padded to (at least)
two digits, joined by a colon. -/
theorem c9_format_time (s : Nat) : formatTime s = formatTimeSpec s := by
  rw [formatTime, formatTimeSpec, padStart_repr_two, padStart_repr_two]

/-- C10: every successfully built task stores the submitted title verbatim —
untrimmed — and satisfies only the weaker invariant that the title is
non-empty after trimming; concretely, a title with surrounding whitespace is
stored differing from its trimmed form. -/
theorem c10_title_stored_verbatim :
    (∀ (form : TaskFormState) (initialTask : Option Task) (freshId now : String) (t : Task),
      handleSubmit form initialTask freshId now = .ok t →
      t.title = form.title ∧ jsTrim t.title ≠ "") ∧
    (∃ (form : TaskFormState) (t : Task),
      handleSubmit form none "fresh-id" "ts-0" = .ok t ∧ t.title ≠ jsTrim t.title) := by
  constructor
  · intro form initialTask freshId now t hok
    unfold handleSubmit at hok
    by_cases h : jsTrim form.title = ""
    · rw [if_pos h] at hok
      exact absurd hok (by simp)
    · rw [if_neg h] at hok
      simp only [Except.ok.injEq] at hok
      subst hok
      exact ⟨rfl, h⟩
  · refine ⟨{ title := " a ", description := "", priority := .medium, dueDate := "" },
      { id := "fresh-id", title := " a ", description := some "", priority := .medium,
        completed := false, dueDate := none, createdAt := "ts-0" }, ?_, by decide⟩
    rfl

/-- C10 witness: the concrete submission of the title " a " stores it
verbatim and it trims to a non-empty string. -/
theorem c10_title_stored_verbatim_witness :
    c10SampleTask.title = " a " ∧ jsTrim c10SampleTask.title ≠ "" :=
  c10_title_stored_verbatim.1
    { title := " a ", description := "", priority := .medium, dueDate := "" }
    none "fresh-id" "ts-0" c10SampleTask rfl

end HorizonLab
